import Mathlib

/-!
Verification of the MapChat browser client's streaming chat decoder,
UI reconciler dispatch, and session state store.

The definitions below are a shallow embedding of the JavaScript sources:

* `static/js/api.js` — `streamChatMessage` / `processStream` (the SSE
  decoder loop), and `geocodeAddress`;
* the form module (`getPlaces`, `getNaturalFeatures`, `resetCachedData`,
  and the new-route path of `generateRoute`);
* `static/js/chat.js` — the `sendMessage` streaming callbacks.

DOM reads (checkbox state, radius sliders, current route/places/features)
are packed into an explicit environment record; DOM writes and network
calls become explicit actions in an emitted action list, in the order the
code performs them.  JSON parsing (`JSON.parse`) is an external library
call and is modelled as an abstract parameter `parse` returning `Option`.
Geographic coordinates are carried opaquely (the client never computes on
them); their numeric type is irrelevant to every property proved here.
-/

namespace MapChat

/-- A coordinate pair as carried in `polyline_coords`.  The client treats
coordinates as opaque data, so an abstract pair of integers suffices. -/
structure Coord where
  lat : Int
  lng : Int
deriving DecidableEq, Repr

/-- A route result as held in `currentRoute` (form module).  In the code a
missing `polyline_coords` field is falsy, an array (even empty) truthy;
hence `Option`. -/
structure Route where
  polyline_coords : Option (List Coord)
  distance_text : String
  duration_text : String
deriving DecidableEq, Repr

/-- A point-of-interest / natural-feature record (name and type; the
client never inspects the coordinate payload in the logic modelled). -/
structure POI where
  name : String
  type : String
deriving DecidableEq, Repr

/-- A cached places/features result: the data plus the radius string it
was fetched with (`currentPlaces = { data: places, radius: placesRadiusKm }`).
The radius is a `String` because it is read from a DOM slider `.value`. -/
structure CacheEntry where
  data : List POI
  radius : String
deriving DecidableEq, Repr

/-- A waypoint descriptor from a `waypoint_added` message
(`data.waypoint.display_name || ''`). -/
structure Waypoint where
  display_name : Option String
deriving DecidableEq, Repr

/-- A decoded SSE message object, with exactly the fields
`streamChatMessage` inspects.  `Option` models field absence; JS string
truthiness (`if (data.chunk)`, `if (data.error)`) is the conjunction of
presence and non-emptiness. -/
structure Msg where
  status : Option String := none
  message : Option String := none
  requires_ui_update : Bool := false
  show_places : Bool := false
  show_features : Bool := false
  waypoint : Option Waypoint := none
  chunk : Option String := none
  complete : Bool := false
  error : Option String := none
deriving DecidableEq, Repr

/-- The mutable locals of `processStream`: `fullResponse` and
`requiresUpdate` (initially `''` and `false`). -/
structure StreamSt where
  fullResponse : String
  requiresUpdate : Bool
deriving DecidableEq, Repr

/-- DOM / form-module environment read by the terminal-status branches of
`processStream`: checkbox states, the radius sliders' string values, the
form module's current route and caches, and the existence of the two DOM
elements the code tests for before using. -/
structure Env where
  showPlacesChecked : Bool
  showFeaturesChecked : Bool
  placesRadius : String
  featuresRadius : String
  currentRoute : Option Route
  currentPlaces : Option CacheEntry
  currentFeatures : Option CacheEntry
  hasGenerateRouteBtn : Bool
  hasWaypointsContainer : Bool
deriving DecidableEq, Repr

/-- An observable action of the decoder, in emission order: the three
callbacks (`onChunk` / `onComplete` / `onError`) plus the DOM/network side
effects the terminal-status branches perform. -/
inductive Act where
  | onChunk (s : String)
  | onComplete (text : String) (requiresUpdate : Bool)
  | onError (msg : String)
  | checkShowPlaces
  | checkShowFeatures
  | fetchPlaces (coords : List Coord) (forceRefresh : Bool)
  | fetchFeatures (coords : List Coord) (forceRefresh : Bool)
  | clickGenerateRoute
  | addWaypointInput (displayName : String)
deriving DecidableEq, Repr

/-- `forceRefresh = !currentPlaces || currentPlaces.radius !== placesRadiusKm`
(api.js, places_requested branch). -/
def placesForceRefresh (env : Env) : Bool :=
  match env.currentPlaces with
  | none => true
  | some p => p.radius != env.placesRadius

/-- `forceRefresh = !currentFeatures || currentFeatures.radius !== featuresRadiusKm`
(api.js, features_requested branch). -/
def featuresForceRefresh (env : Env) : Bool :=
  match env.currentFeatures with
  | none => true
  | some f => f.radius != env.featuresRadius

/-- Side effects of the `places_requested` branch when `data.show_places`
is truthy: tick the checkbox if unticked; then either fetch places for the
existing route (with the force-refresh flag) or click the generate-route
button. -/
def placesBranchActs (env : Env) : List Act :=
  (if env.showPlacesChecked then [] else [Act.checkShowPlaces]) ++
  (match env.currentRoute with
   | some r =>
     match r.polyline_coords with
     | some coords => [Act.fetchPlaces coords (placesForceRefresh env)]
     | none => if env.hasGenerateRouteBtn then [Act.clickGenerateRoute] else []
   | none => if env.hasGenerateRouteBtn then [Act.clickGenerateRoute] else [])

/-- Side effects of the `features_requested` branch when
`data.show_features` is truthy. -/
def featuresBranchActs (env : Env) : List Act :=
  (if env.showFeaturesChecked then [] else [Act.checkShowFeatures]) ++
  (match env.currentRoute with
   | some r =>
     match r.polyline_coords with
     | some coords => [Act.fetchFeatures coords (featuresForceRefresh env)]
     | none => if env.hasGenerateRouteBtn then [Act.clickGenerateRoute] else []
   | none => if env.hasGenerateRouteBtn then [Act.clickGenerateRoute] else [])

/-- Side effects of the `waypoint_added` branch when `data.waypoint` is
truthy: append a waypoint input, then click generate-route. -/
def waypointBranchActs (env : Env) (w : Waypoint) : List Act :=
  if env.hasWaypointsContainer then
    [Act.addWaypointInput (w.display_name.getD "")] ++
      (if env.hasGenerateRouteBtn then [Act.clickGenerateRoute] else [])
  else []

/-- Processing of one parsed `data:` object, translated branch for branch
from the body of the `for (const line of lines)` loop in
`streamChatMessage`.  Returns the emitted actions, the updated
`fullResponse` / `requiresUpdate` state, and whether the branch returned
after cancelling the reader (a terminal event). -/
def processDataMessage (env : Env) (st : StreamSt) (m : Msg) :
    List Act × StreamSt × Bool :=
  if m.status = some "route_generated" then
    let fr := m.message.getD ""
    let ru := m.requires_ui_update
    ([Act.onComplete fr ru], ⟨fr, ru⟩, true)
  else if m.status = some "places_requested" then
    let fr := m.message.getD ""
    let ru := m.requires_ui_update
    ((if m.show_places then placesBranchActs env else []) ++
       [Act.onComplete fr ru], ⟨fr, ru⟩, true)
  else if m.status = some "features_requested" then
    let fr := m.message.getD ""
    let ru := m.requires_ui_update
    ((if m.show_features then featuresBranchActs env else []) ++
       [Act.onComplete fr ru], ⟨fr, ru⟩, true)
  else if m.status = some "waypoint_added" then
    let fr := m.message.getD ""
    let ru := m.requires_ui_update
    ((match m.waypoint with
      | some w => waypointBranchActs env w
      | none => []) ++ [Act.onComplete fr ru], ⟨fr, ru⟩, true)
  else
    let chunkPart : List Act × String :=
      match m.chunk with
      | some c =>
        if c = "" then ([], st.fullResponse)
        else ([Act.onChunk c], st.fullResponse ++ c)
      | none => ([], st.fullResponse)
    let ru1 := if m.complete then m.requires_ui_update else st.requiresUpdate
    match m.error with
    | some e =>
      if e = "" then (chunkPart.1, ⟨chunkPart.2, ru1⟩, false)
      else (chunkPart.1 ++ [Act.onError e], ⟨chunkPart.2, ru1⟩, true)
    | none => (chunkPart.1, ⟨chunkPart.2, ru1⟩, false)

/-- The message has a `status` field with one of the four recognized
terminal kinds. -/
def recognizedStatus (m : Msg) : Bool :=
  m.status = some "route_generated" || m.status = some "places_requested" ||
    m.status = some "features_requested" || m.status = some "waypoint_added"

/-- The message has a truthy `error` field. -/
def truthyError (m : Msg) : Bool :=
  match m.error with
  | some e => e != ""
  | none => false

/-- The truthy `chunk` payload of a message, if any. -/
def truthyChunk (m : Msg) : Option String :=
  match m.chunk with
  | some c => if c = "" then none else some c
  | none => none

/-- The message terminates the stream: a recognized terminal status or a
truthy error. -/
def isTerminalMsg (m : Msg) : Bool :=
  recognizedStatus m || truthyError m

/-- Prepend a character to the first piece of a split result (helper for
`splitNN`). -/
def consHead (c : Char) : List (List Char) → List (List Char)
  | [] => [[c]]
  | p :: ps => (c :: p) :: ps

/-- `buffer.split('\n\n')` on a character list: leftmost, non-overlapping
occurrences of the two-character delimiter, exactly as JS `String.split`
with a plain-string separator. -/
def splitNN : List Char → List (List Char)
  | [] => [[]]
  | [c] => [[c]]
  | a :: b :: rest =>
    if a = '\n' ∧ b = '\n' then [] :: splitNN rest
    else consHead a (splitNN (b :: rest))

/-- `'data: '` — the six-character prefix tested by
`line.startsWith('data: ')`; `line.slice(6)` drops exactly it. -/
def dataPrefixChars : List Char := ['d', 'a', 't', 'a', ':', ' ']

/-- Processing of one complete SSE segment (`for (const line of lines)`
body): segments without the `data: ` prefix are ignored; the JSON
remainder is parsed by the abstract `parse` (`JSON.parse`); a parse
failure is logged and skipped (no actions, state unchanged, stream
continues). -/
def processLine (parse : List Char → Option Msg) (env : Env) (st : StreamSt)
    (line : List Char) : List Act × StreamSt × Bool :=
  if dataPrefixChars.isPrefixOf line then
    match parse (line.drop 6) with
    | some m => processDataMessage env st m
    | none => ([], st, false)
  else ([], st, false)

/-- The `for` loop over the complete segments of one read: process each in
order, stopping (and discarding the rest) as soon as a branch returns. -/
def processLines (parse : List Char → Option Msg) (env : Env) (st : StreamSt) :
    List (List Char) → List Act × StreamSt × Bool
  | [] => ([], st, false)
  | l :: ls =>
    let r1 := processLine parse env st l
    if r1.2.2 then (r1.1, r1.2.1, true)
    else
      let r2 := processLines parse env r1.2.1 ls
      (r1.1 ++ r2.1, r2.2.1, r2.2.2)

/-- The `processStream` read loop of `streamChatMessage`: each fragment is
appended to the buffer, the buffer is split on `'\n\n'`, the last piece is
kept as the new buffer and the complete segments are processed; a terminal
branch cancels the reader (no further fragment is read); on natural
end-of-stream (`done`) a completion event is synthesized from
`fullResponse` and `requiresUpdate`. -/
def processStream (parse : List Char → Option Msg) (env : Env) :
    List (List Char) → List Char → StreamSt → List Act
  | [], _, st => [Act.onComplete st.fullResponse st.requiresUpdate]
  | f :: rest, buf, st =>
    let parts := splitNN (buf ++ f)
    let r := processLines parse env st parts.dropLast
    if r.2.2 then r.1
    else r.1 ++ processStream parse env rest (parts.getLastD []) r.2.1

/-- Natural-end decoding of a list of complete segments from state `st`:
process them in order; if no terminal branch fired, append the synthesized
completion event.  (`processStream` on a single fragment holding the whole
stream reduces to this.) -/
def decodeLines (parse : List Char → Option Msg) (env : Env) (st : StreamSt)
    (lines : List (List Char)) : List Act :=
  let r := processLines parse env st lines
  if r.2.2 then r.1
  else r.1 ++ [Act.onComplete r.2.1.fullResponse r.2.1.requiresUpdate]

/-- Reference decoder: split the whole concatenated stream into its
complete segments (dropping unterminated trailing content) and decode them
at natural end from state `st`. -/
def decodeWhole (parse : List Char → Option Msg) (env : Env) (st : StreamSt)
    (whole : List Char) : List Act :=
  decodeLines parse env st (splitNN whole).dropLast

/-! ## Session state store (form module) -/

/-- The form module's top-level mutable state: `currentRoute`,
`currentPlaces`, `currentFeatures`. -/
structure FormState where
  currentRoute : Option Route
  currentPlaces : Option CacheEntry
  currentFeatures : Option CacheEntry
deriving DecidableEq, Repr

/-- `currentPlaces && currentPlaces.radius === placesRadiusKm` — the cache
reuse test of `getPlaces` (strict string equality against the slider
value). -/
def cacheHit (cache : Option CacheEntry) (radius : String) : Bool :=
  match cache with
  | some p => p.radius == radius
  | none => false

/-- The form module's `getPlaces(polylineCoords, forceRefresh)`: reuse the
cached result when not forced and the stored radius equals the selected
radius (no fetch, state unchanged); otherwise invoke the remote fetcher
and store its result tagged with the radius.  Returns the new state and
whether the fetcher was invoked.  (Rendering/`update_places_data` side
effects carry no store state and are omitted.) -/
def getPlaces (fetcher : List Coord → String → List POI)
    (polylineCoords : List Coord) (placesRadiusKm : String)
    (forceRefresh : Bool) (s : FormState) : FormState × Bool :=
  if !forceRefresh && cacheHit s.currentPlaces placesRadiusKm then (s, false)
  else
    let entry : CacheEntry := ⟨fetcher polylineCoords placesRadiusKm, placesRadiusKm⟩
    ({ s with currentPlaces := some entry }, true)

/-- The form module's `getNaturalFeatures(polylineCoords, forceRefresh)`,
identical in structure to `getPlaces` but over `currentFeatures`. -/
def getNaturalFeatures (fetcher : List Coord → String → List POI)
    (polylineCoords : List Coord) (featuresRadiusKm : String)
    (forceRefresh : Bool) (s : FormState) : FormState × Bool :=
  if !forceRefresh && cacheHit s.currentFeatures featuresRadiusKm then (s, false)
  else
    let entry : CacheEntry := ⟨fetcher polylineCoords featuresRadiusKm, featuresRadiusKm⟩
    ({ s with currentFeatures := some entry }, true)

/-- `resetCachedData()`: clears the cached places and features. -/
def resetCachedData (s : FormState) : FormState :=
  { s with currentPlaces := none, currentFeatures := none }

/-- The state-store effect of `generateRoute`'s new-route path (the spec's
`setRoute`): `resetCachedData()` followed by `currentRoute = routeData`. -/
def setRoute (route : Route) (s : FormState) : FormState :=
  { resetCachedData s with currentRoute := some route }

/-! ## geocodeAddress -/

/-- A geocode response body (`{lat, lng}`), carried opaquely. -/
structure GeoData where
  lat : Int
  lng : Int
deriving DecidableEq, Repr

/-- The observable outcome of the `fetch('/geocode')` + `response.json()`
pair inside `geocodeAddress`: a 2xx response with parsed body, a non-2xx
response with an error body, or a thrown exception (network failure or
body-parse failure). -/
inductive GeoOutcome where
  | ok (data : GeoData)
  | httpError (err : String)
  | exn (msg : String)
deriving DecidableEq, Repr

/-- `geocodeAddress`: returns the parsed coordinates on a 2xx response,
`null` on a non-2xx response, and `null` from the `catch` block when the
request or parsing throws.  The display-element updates only touch the
DOM and are omitted; every path is caught, so the function never
rejects. -/
def geocodeAddress : GeoOutcome → Option GeoData
  | .ok d => some d
  | .httpError _ => none
  | .exn _ => none

/-! ## Chat UI callbacks (chat.js sendMessage) -/

/-- The assistant message bubble text shown by `sendMessage`'s `onError`
callback. -/
def chatStreamErrorText : String :=
  "Sorry, there was an error processing your request. Please try again."

/-- The pending assistant chat bubble. -/
structure ChatUI where
  assistantText : String
deriving DecidableEq, Repr

/-- The effect of one decoder action on the assistant bubble, per the
`sendMessage` callbacks: `onChunk` appends, `onComplete` sets the final
text, `onError` replaces the bubble with the fixed error text; the other
actions do not touch the chat UI. -/
def applyChatAct (ui : ChatUI) : Act → ChatUI
  | .onChunk c => ⟨ui.assistantText ++ c⟩
  | .onComplete text _ => ⟨text⟩
  | .onError _ => ⟨chatStreamErrorText⟩
  | _ => ui

/-- The effect of one decoder action on the session state store.  The
fetch actions run `getPlaces` / `getNaturalFeatures`; a generate-route
click starts the route-generation flow (`routeFlow`) and a completion with
the update flag set starts `checkForRouteUpdate` (`updateFlow`), both
opaque state transformers; callbacks and checkbox ticks do not touch the
store. -/
def applyStoreAct (fetchP fetchF : List Coord → String → List POI)
    (routeFlow updateFlow : FormState → FormState) (env : Env)
    (s : FormState) : Act → FormState
  | .fetchPlaces coords force => (getPlaces fetchP coords env.placesRadius force s).1
  | .fetchFeatures coords force =>
    (getNaturalFeatures fetchF coords env.featuresRadius force s).1
  | .clickGenerateRoute => routeFlow s
  | .onComplete _ ru => if ru then updateFlow s else s
  | _ => s

/-! ## Properties of the delimiter split -/

theorem splitNN_ne_nil (s : List Char) : splitNN s ≠ [] := by
  induction s using splitNN.induct with
  | case1 => simp [splitNN]
  | case2 c => simp [splitNN]
  | case3 a b rest h ih => simp [splitNN, h]
  | case4 a b rest h ih =>
    simp only [splitNN, if_neg h]
    cases hs : splitNN (b :: rest) with
    | nil => simp [consHead]
    | cons p ps => simp [consHead]

theorem getLastD_congr {α : Type} (l : List α) (h : l ≠ []) (d1 d2 : α) :
    l.getLastD d1 = l.getLastD d2 := by
  cases l with
  | nil => exact absurd rfl h
  | cons a t => rw [List.getLastD_cons, List.getLastD_cons]

theorem splitNN_single {s t : List Char} (h : splitNN s = [t]) : t = s := by
  induction s using splitNN.induct generalizing t with
  | case1 => simp [splitNN] at h; exact h
  | case2 c => simp [splitNN] at h; exact h.symm
  | case3 a b rest hab ih =>
    simp only [splitNN, if_pos hab] at h
    simp at h
    exact absurd h.2 (splitNN_ne_nil rest)
  | case4 a b rest hab ih =>
    simp only [splitNN, if_neg hab] at h
    cases hr : splitNN (b :: rest) with
    | nil => exact absurd hr (splitNN_ne_nil _)
    | cons p ps =>
      rw [hr] at h
      simp only [consHead] at h
      cases ps with
      | cons q qs => simp at h
      | nil =>
        have ht : a :: p = t := by simpa using h
        have hp : p = b :: rest := ih hr
        rw [← ht, hp]

theorem splitNN_lastPiece (s : List Char) :
    splitNN ((splitNN s).getLastD []) = [(splitNN s).getLastD []] := by
  induction s using splitNN.induct with
  | case1 => rfl
  | case2 c => rfl
  | case3 a b rest hab ih =>
    simp only [splitNN, if_pos hab, List.getLastD_cons]
    rwa [getLastD_congr _ (splitNN_ne_nil rest) [] []] at ih
  | case4 a b rest hab ih =>
    simp only [splitNN, if_neg hab]
    cases hr : splitNN (b :: rest) with
    | nil => exact absurd hr (splitNN_ne_nil _)
    | cons p ps =>
      rw [hr] at ih
      cases ps with
      | nil =>
        have hp : p = b :: rest := splitNN_single hr
        simp only [consHead, List.getLastD_cons, List.getLastD]
        show splitNN (a :: p) = [a :: p]
        rw [hp]
        simp only [splitNN, if_neg hab, hr, hp, consHead]
      | cons q qs =>
        simp only [consHead, List.getLastD_cons] at *
        exact ih

theorem splitNN_append (a b : List Char) :
    splitNN (a ++ b) =
      (splitNN a).dropLast ++ splitNN ((splitNN a).getLastD [] ++ b) := by
  induction a using splitNN.induct with
  | case1 => simp [splitNN]
  | case2 c => rfl
  | case3 x y rest hab ih =>
    have hcons : splitNN ((x :: y :: rest) ++ b) = [] :: splitNN (rest ++ b) := by
      show splitNN (x :: y :: (rest ++ b)) = [] :: splitNN (rest ++ b)
      simp only [splitNN, if_pos hab]
    have hxy : splitNN (x :: y :: rest) = [] :: splitNN rest := by
      simp only [splitNN, if_pos hab]
    rw [hcons, ih, hxy, List.getLastD_cons]
    cases hr : splitNN rest with
    | nil => exact absurd hr (splitNN_ne_nil _)
    | cons p ps => simp [List.dropLast_cons₂]
  | case4 x y rest hab ih =>
    have hcons : splitNN ((x :: y :: rest) ++ b) =
        consHead x (splitNN ((y :: rest) ++ b)) := by
      show splitNN (x :: y :: (rest ++ b)) = consHead x (splitNN (y :: (rest ++ b)))
      simp only [splitNN, if_neg hab]
    have hxy : splitNN (x :: y :: rest) = consHead x (splitNN (y :: rest)) := by
      simp only [splitNN, if_neg hab]
    rw [hcons, ih, hxy]
    cases hr : splitNN (y :: rest) with
    | nil => exact absurd hr (splitNN_ne_nil _)
    | cons p ps =>
      cases ps with
      | nil =>
        have hp : p = y :: rest := splitNN_single hr
        have h1 : ([p] : List (List Char)).getLastD [] = p := rfl
        have h2 : ([p] : List (List Char)).dropLast = [] := rfl
        have h3 : consHead x [p] = [x :: p] := rfl
        have h4 : ([x :: p] : List (List Char)).getLastD [] = x :: p := rfl
        have h5 : ([x :: p] : List (List Char)).dropLast = [] := rfl
        rw [h1, h2, h3, h4, h5, List.nil_append, List.nil_append, hp]
        exact hcons.symm
      | cons q qs =>
        simp only [consHead, List.dropLast_cons₂, List.getLastD_cons,
          List.cons_append]

theorem processLines_append (parse : List Char → Option Msg) (env : Env)
    (st : StreamSt) (xs ys : List (List Char)) :
    processLines parse env st (xs ++ ys) =
      (let r1 := processLines parse env st xs
       if r1.2.2 then r1
       else
         let r2 := processLines parse env r1.2.1 ys
         (r1.1 ++ r2.1, r2.2)) := by
  induction xs generalizing st with
  | nil => simp [processLines]
  | cons l ls ih =>
    simp only [List.cons_append, List.append_eq, processLines]
    by_cases h : (processLine parse env st l).2.2
    · simp [h]
    · simp only [h, if_false, Bool.false_eq_true]
      rw [ih]
      by_cases h2 : (processLines parse env (processLine parse env st l).2.1 ls).2.2 <;>
        simp [h, h2, List.append_assoc]

theorem processStream_eq_decodeWhole (parse : List Char → Option Msg) (env : Env) :
    ∀ (frags : List (List Char)) (buf : List Char) (st : StreamSt),
      splitNN buf = [buf] →
      processStream parse env frags buf st =
        decodeWhole parse env st (buf ++ frags.flatten) := by
  intro frags
  induction frags with
  | nil =>
    intro buf st hbuf
    simp [processStream, decodeWhole, decodeLines, processLines, hbuf]
  | cons f rest ih =>
    intro buf st hbuf
    have hjoin : buf ++ (f :: rest).flatten = (buf ++ f) ++ rest.flatten := by
      simp [List.flatten_cons, List.append_assoc]
    rw [hjoin]
    have hsplit := splitNN_append (buf ++ f) rest.flatten
    have hlast := splitNN_lastPiece (buf ++ f)
    have hne := splitNN_ne_nil ((splitNN (buf ++ f)).getLastD [] ++ rest.flatten)
    simp only [processStream, decodeWhole, decodeLines, hsplit,
      List.dropLast_append_of_ne_nil _ (splitNN_ne_nil _),
      processLines_append]
    rw [ih _ _ hlast]
    by_cases h1 : (processLines parse env st (splitNN (buf ++ f)).dropLast).2.2
    · simp [h1, decodeWhole, decodeLines]
    · simp only [h1, if_false, Bool.false_eq_true]
      split <;> rename_i hc <;>
        simp only [List.getLastD_eq_getLast?] at hc <;>
        simp [decodeWhole, decodeLines, hc, List.append_assoc]

/-! ## Per-message branch lemmas -/

theorem processDataMessage_nonstatus (env : Env) (st : StreamSt) (m : Msg)
    (h : recognizedStatus m = false) :
    processDataMessage env st m =
      (let ca : List Act := (truthyChunk m).elim [] (fun c => [Act.onChunk c])
       let fr : String := st.fullResponse ++ ((truthyChunk m).getD "")
       let ru : Bool := if m.complete then m.requires_ui_update else st.requiresUpdate
       if truthyError m then (ca ++ [Act.onError (m.error.getD "")], ⟨fr, ru⟩, true)
       else (ca, ⟨fr, ru⟩, false)) := by
  simp only [recognizedStatus, Bool.or_eq_false_iff, decide_eq_false_iff_not] at h
  obtain ⟨⟨⟨h1, h2⟩, h3⟩, h4⟩ := h
  simp only [processDataMessage, if_neg h1, if_neg h2, if_neg h3, if_neg h4]
  cases hc : m.chunk with
  | none =>
    cases he : m.error with
    | none => simp [truthyChunk, truthyError, hc, he]
    | some e =>
      by_cases hee : e = "" <;> simp [truthyChunk, truthyError, hc, he, hee]
  | some c =>
    by_cases hcc : c = "" <;>
      cases he : m.error with
      | none => simp [truthyChunk, truthyError, hc, he, hcc]
      | some e =>
        by_cases hee : e = "" <;> simp [truthyChunk, truthyError, hc, he, hcc, hee]

theorem processDataMessage_nonterminal (env : Env) (st : StreamSt) (m : Msg)
    (h : isTerminalMsg m = false) :
    processDataMessage env st m =
      ((truthyChunk m).elim [] (fun c => [Act.onChunk c]),
       ⟨st.fullResponse ++ ((truthyChunk m).getD ""),
        if m.complete then m.requires_ui_update else st.requiresUpdate⟩, false) := by
  simp only [isTerminalMsg, Bool.or_eq_false_iff] at h
  rw [processDataMessage_nonstatus env st m h.1]
  simp [h.2]

theorem onError_not_mem_placesBranch (env : Env) (e : String) :
    Act.onError e ∉ placesBranchActs env := by
  unfold placesBranchActs
  cases env.currentRoute with
  | none => cases env.showPlacesChecked <;> cases env.hasGenerateRouteBtn <;> simp
  | some r =>
    cases hpc : r.polyline_coords with
    | none =>
      simp only [hpc]
      cases env.showPlacesChecked <;> cases env.hasGenerateRouteBtn <;> simp
    | some coords =>
      simp only [hpc]
      cases env.showPlacesChecked <;> simp

theorem onError_not_mem_featuresBranch (env : Env) (e : String) :
    Act.onError e ∉ featuresBranchActs env := by
  unfold featuresBranchActs
  cases env.currentRoute with
  | none => cases env.showFeaturesChecked <;> cases env.hasGenerateRouteBtn <;> simp
  | some r =>
    cases hpc : r.polyline_coords with
    | none =>
      simp only [hpc]
      cases env.showFeaturesChecked <;> cases env.hasGenerateRouteBtn <;> simp
    | some coords =>
      simp only [hpc]
      cases env.showFeaturesChecked <;> simp

theorem onError_not_mem_waypointBranch (env : Env) (w : Waypoint) (e : String) :
    Act.onError e ∉ waypointBranchActs env w := by
  unfold waypointBranchActs
  cases env.hasWaypointsContainer <;> cases env.hasGenerateRouteBtn <;> simp

/-- A concrete environment for closed evaluations: checkboxes ticked, no
route or caches, both DOM elements present. -/
def env0 : Env :=
  { showPlacesChecked := true, showFeaturesChecked := true,
    placesRadius := "5", featuresRadius := "5",
    currentRoute := none, currentPlaces := none, currentFeatures := none,
    hasGenerateRouteBtn := true, hasWaypointsContainer := true }

/-- **C2 counterexample.**  A decoded message carrying both a recognized
`status` field and an `error` field is resolved in favour of the status:
`{"status":"route_generated","message":"ok","error":"boom"}` emits the
route-generated completion and no error event, contradicting the claimed
error-first priority. -/
theorem statusAndError_yields_status_event :
    (processDataMessage env0 ⟨"", false⟩
        { status := some "route_generated", message := some "ok",
          error := some "boom" }).1 = [Act.onComplete "ok" false] ∧
    Act.onError "boom" ∉
      (processDataMessage env0 ⟨"", false⟩
          { status := some "route_generated", message := some "ok",
            error := some "boom" }).1 := by
  constructor <;> simp [processDataMessage]

/-- **C2 (amended).**  Terminal-field priority as implemented: a recognized
named status event wins over everything (no error event is emitted, the
message field becomes the completion text, the stream is terminated); in a
message without a recognized status, a truthy `error` field wins over a
`complete` field (the error event is emitted last, no completion event is
emitted, the stream is terminated). -/
theorem terminal_field_priority (env : Env) (st : StreamSt) (m : Msg) :
    (recognizedStatus m = true →
       (∀ e, Act.onError e ∉ (processDataMessage env st m).1) ∧
       (processDataMessage env st m).1.getLast? =
         some (Act.onComplete (m.message.getD "") m.requires_ui_update) ∧
       (processDataMessage env st m).2.2 = true) ∧
    (recognizedStatus m = false → truthyError m = true →
       (processDataMessage env st m).1.getLast? =
         some (Act.onError (m.error.getD "")) ∧
       (∀ t ru, Act.onComplete t ru ∉ (processDataMessage env st m).1) ∧
       (processDataMessage env st m).2.2 = true) := by
  constructor
  · intro h
    simp only [recognizedStatus, Bool.or_eq_true, decide_eq_true_eq] at h
    rcases h with ((h | h) | h) | h
    · have h2 : ¬ m.status = some "places_requested" := by simp [h]
      simp [processDataMessage, h]
    · have h1 : ¬ m.status = some "route_generated" := by simp [h]
      simp only [processDataMessage, if_neg h1, if_pos h]
      refine ⟨fun e => ?_, by simp [List.getLast?_concat], by trivial⟩
      by_cases hs : m.show_places = true <;>
        simp [hs, onError_not_mem_placesBranch]
    · have h1 : ¬ m.status = some "route_generated" := by simp [h]
      have h2 : ¬ m.status = some "places_requested" := by simp [h]
      simp only [processDataMessage, if_neg h1, if_neg h2, if_pos h]
      refine ⟨fun e => ?_, by simp [List.getLast?_concat], by trivial⟩
      by_cases hs : m.show_features = true <;>
        simp [hs, onError_not_mem_featuresBranch]
    · have h1 : ¬ m.status = some "route_generated" := by simp [h]
      have h2 : ¬ m.status = some "places_requested" := by simp [h]
      have h3 : ¬ m.status = some "features_requested" := by simp [h]
      simp only [processDataMessage, if_neg h1, if_neg h2, if_neg h3, if_pos h]
      refine ⟨fun e => ?_, by simp [List.getLast?_concat], by trivial⟩
      cases hw : m.waypoint with
      | none => simp
      | some w => simp [onError_not_mem_waypointBranch]
  · intro h he
    rw [processDataMessage_nonstatus env st m h]
    simp only [he, if_true]
    refine ⟨by simp [List.getLast?_concat], fun t ru => ?_, by trivial⟩
    cases hc : truthyChunk m <;> simp [hc]

/-- **C1.**  Fragment-boundary independence of the SSE decoder: for every
sequence of raw stream fragments, running the buffered decoder loop
(append fragment, split on the double-newline delimiter, process every
complete segment, keep the last split piece as the new buffer) emits
exactly the action sequence of the reference decoder that splits the whole
concatenated stream once and processes its complete messages in order —
wherever the fragment boundaries fall, and in particular for any
fragmentation of a stream of N well-formed `data:` messages. -/
theorem processStream_fragmentation_invariant (parse : List Char → Option Msg)
    (env : Env) (frags : List (List Char)) :
    processStream parse env frags [] ⟨"", false⟩ =
      decodeWhole parse env ⟨"", false⟩ frags.flatten := by
  have h := processStream_eq_decodeWhole parse env frags [] ⟨"", false⟩ rfl
  simpa using h

/-- The line encodes the message: it carries the `data: ` prefix and its
remainder parses to the message. -/
def encodesMsg (parse : List Char → Option Msg) (line : List Char) (m : Msg) : Prop :=
  dataPrefixChars.isPrefixOf line = true ∧ parse (line.drop 6) = some m

/-- The text-chunk events of a message list: one per truthy `chunk`
payload, in order. -/
def chunkEvents (msgs : List Msg) : List Act :=
  msgs.filterMap (fun m => (truthyChunk m).map Act.onChunk)

/-- The in-order concatenation of all truthy `chunk` payloads. -/
def chunksConcat (msgs : List Msg) : String :=
  String.join (msgs.filterMap truthyChunk)

theorem strJoin_foldl (init : String) (l : List String) :
    l.foldl (fun r s => r ++ s) init = init ++ String.join l := by
  induction l generalizing init with
  | nil => simp [String.join]
  | cons x xs ih =>
    rw [List.foldl_cons, ih (init ++ x)]
    have hx : String.join (x :: xs) = ("" ++ x) ++ String.join xs := by
      show (x :: xs).foldl (fun r s => r ++ s) "" = ("" ++ x) ++ String.join xs
      rw [List.foldl_cons, ih ("" ++ x)]
    rw [hx]
    simp [String.append_assoc]

theorem strJoin_cons (s : String) (l : List String) :
    String.join (s :: l) = s ++ String.join l := by
  show (s :: l).foldl (fun r t => r ++ t) "" = s ++ String.join l
  rw [List.foldl_cons, strJoin_foldl]
  simp

/-- The `requires_ui_update` flag of the last message carrying a truthy
`complete` field, or `init` if none does. -/
def lastCompleteFlag (init : Bool) (msgs : List Msg) : Bool :=
  match (msgs.filter (fun m => m.complete)).getLast? with
  | some m => m.requires_ui_update
  | none => init

theorem lastCompleteFlag_cons (init : Bool) (m : Msg) (ms : List Msg) :
    lastCompleteFlag init (m :: ms) =
      lastCompleteFlag (if m.complete then m.requires_ui_update else init) ms := by
  unfold lastCompleteFlag
  by_cases hm : m.complete = true
  · simp only [List.filter_cons, hm, if_true]
    cases hf : (ms.filter (fun m => m.complete)).getLast? with
    | some m2 => simp [List.getLast?_cons, hf]
    | none =>
      rw [List.getLast?_eq_none_iff] at hf
      simp [hf, hm]
  · simp [List.filter_cons, hm]

theorem processLines_nonterminal (parse : List Char → Option Msg) (env : Env)
    (lines : List (List Char)) (msgs : List Msg)
    (henc : List.Forall₂ (encodesMsg parse) lines msgs)
    (hnt : ∀ m ∈ msgs, isTerminalMsg m = false) :
    ∀ st : StreamSt,
      processLines parse env st lines =
        (chunkEvents msgs,
         ⟨st.fullResponse ++ chunksConcat msgs,
          lastCompleteFlag st.requiresUpdate msgs⟩, false) := by
  induction henc with
  | nil =>
    intro st
    simp only [processLines, chunkEvents, chunksConcat, lastCompleteFlag,
      List.filterMap_nil, List.filter_nil, List.getLast?_nil]
    have : String.join ([] : List String) = "" := rfl
    simp [this]
  | cons hrel hrest ih =>
    intro st
    rename_i l m ls ms
    have hm : isTerminalMsg m = false := hnt m (by simp)
    have hline : processLine parse env st l = processDataMessage env st m := by
      unfold processLine
      rw [if_pos hrel.1, hrel.2]
    rw [processLines, hline, processDataMessage_nonterminal env st m hm]
    simp only [Bool.false_eq_true, if_false]
    rw [ih (fun m2 hm2 => hnt m2 (by simp [hm2]))]
    rw [lastCompleteFlag_cons]
    cases hc : truthyChunk m with
    | none =>
      simp [chunkEvents, chunksConcat, List.filterMap_cons, hc]
    | some c =>
      simp [chunkEvents, chunksConcat, List.filterMap_cons, hc, strJoin_cons,
        String.append_assoc]

/-- **C3.**  If a stream's complete segments encode messages none of which
is terminal (no recognized status, no truthy error), then at natural
end-of-stream the decoder emits, after one text-chunk event per truthy
`chunk` payload in order, exactly one synthesized completion event whose
text is the in-order concatenation of all `chunk` payloads and whose
update flag is the `requires_ui_update` value of the last message carrying
a `complete` field (`false` if none occurred). -/
theorem natural_end_completion (parse : List Char → Option Msg) (env : Env)
    (lines : List (List Char)) (msgs : List Msg)
    (henc : List.Forall₂ (encodesMsg parse) lines msgs)
    (hnt : ∀ m ∈ msgs, isTerminalMsg m = false) :
    decodeLines parse env ⟨"", false⟩ lines =
      chunkEvents msgs ++
        [Act.onComplete (chunksConcat msgs) (lastCompleteFlag false msgs)] := by
  unfold decodeLines
  rw [processLines_nonterminal parse env lines msgs henc hnt ⟨"", false⟩]
  simp

/-- **C4.**  A segment carrying the `data: ` prefix whose remainder fails
to parse is skipped: the decoder run over any stream containing it equals
the run over the same stream with the malformed segment removed — it does
not terminate the stream, and every well-formed message before and after
it is still decoded. -/
theorem malformed_segment_skipped (parse : List Char → Option Msg) (env : Env)
    (st : StreamSt) (xs ys : List (List Char)) (bad : List Char)
    (hpre : dataPrefixChars.isPrefixOf bad = true)
    (hbad : parse (bad.drop 6) = none) :
    processLines parse env st (xs ++ bad :: ys) =
      processLines parse env st (xs ++ ys) := by
  induction xs generalizing st with
  | nil =>
    simp only [List.nil_append]
    rw [processLines]
    unfold processLine
    rw [if_pos hpre, hbad]
    simp [processLines]
  | cons l ls ih =>
    simp only [List.cons_append]
    rw [processLines, processLines]
    by_cases h : (processLine parse env st l).2.2 <;> simp [h, ih]

/-- **C5.**  The cached-result reuse of `getPlaces` / `getNaturalFeatures`
without forced refresh: a cache hit (stored radius equals the selected
radius) returns with the state unchanged and without invoking the remote
fetcher; a miss invokes the fetcher once and stores its result tagged with
the radius; and immediately repeating the call with the same radius never
fetches again — so for a fixed radius, while the route is unchanged, the
fetcher runs at most once. -/
theorem getOrFetch_cached (fetcher : List Coord → String → List POI)
    (coords : List Coord) (rad : String) (s : FormState) :
    (cacheHit s.currentPlaces rad = true →
       getPlaces fetcher coords rad false s = (s, false)) ∧
    (cacheHit s.currentPlaces rad = false →
       getPlaces fetcher coords rad false s =
         ({ s with currentPlaces := some ⟨fetcher coords rad, rad⟩ }, true)) ∧
    getPlaces fetcher coords rad false
        (getPlaces fetcher coords rad false s).1 =
      ((getPlaces fetcher coords rad false s).1, false) ∧
    (cacheHit s.currentFeatures rad = true →
       getNaturalFeatures fetcher coords rad false s = (s, false)) ∧
    (cacheHit s.currentFeatures rad = false →
       getNaturalFeatures fetcher coords rad false s =
         ({ s with currentFeatures := some ⟨fetcher coords rad, rad⟩ }, true)) ∧
    getNaturalFeatures fetcher coords rad false
        (getNaturalFeatures fetcher coords rad false s).1 =
      ((getNaturalFeatures fetcher coords rad false s).1, false) := by
  refine ⟨fun h => ?_, fun h => ?_, ?_, fun h => ?_, fun h => ?_, ?_⟩
  · simp [getPlaces, h]
  · simp [getPlaces, h]
  · have hg : ∀ s2 : FormState, getPlaces fetcher coords rad false s2 =
        if cacheHit s2.currentPlaces rad then (s2, false)
        else ({ s2 with currentPlaces := some ⟨fetcher coords rad, rad⟩ }, true) := by
      intro s2; simp [getPlaces]
    by_cases h : cacheHit s.currentPlaces rad = true <;>
      simp only [hg, h] <;> simp [cacheHit]
    all_goals exact h
  · simp [getNaturalFeatures, h]
  · simp [getNaturalFeatures, h]
  · have hg : ∀ s2 : FormState, getNaturalFeatures fetcher coords rad false s2 =
        if cacheHit s2.currentFeatures rad then (s2, false)
        else ({ s2 with currentFeatures := some ⟨fetcher coords rad, rad⟩ }, true) := by
      intro s2; simp [getNaturalFeatures]
    by_cases h : cacheHit s.currentFeatures rad = true <;>
      simp only [hg, h] <;> simp [cacheHit]
    all_goals exact h

/-- **C6.**  Replacing the current route (`setRoute`, the state effect of
`generateRoute`'s new-route path) unconditionally clears the cached places
and features; consequently setting two routes and requesting places at the
same radius after each invokes the fetcher both times. -/
theorem setRoute_clears_caches (s : FormState) (r1 r2 : Route)
    (fetcher : List Coord → String → List POI) (coords : List Coord)
    (rad : String) :
    (setRoute r1 s).currentPlaces = none ∧
    (setRoute r1 s).currentFeatures = none ∧
    (setRoute r1 s).currentRoute = some r1 ∧
    (getPlaces fetcher coords rad false (setRoute r1 s)).2 = true ∧
    (getPlaces fetcher coords rad false
        (setRoute r2
          (getPlaces fetcher coords rad false (setRoute r1 s)).1)).2 = true := by
  refine ⟨rfl, rfl, rfl, ?_, ?_⟩ <;>
    simp [setRoute, resetCachedData, getPlaces, cacheHit]

/-- **C10.**  `geocodeAddress` never rejects: it is a total function of
the request outcome, returning the parsed coordinate object on a 2xx
response and `null` both on a non-2xx response and when the request or
response parsing throws (the `catch` block swallows the exception). -/
theorem geocodeAddress_never_rejects :
    (∀ d, geocodeAddress (GeoOutcome.ok d) = some d) ∧
    (∀ e, geocodeAddress (GeoOutcome.httpError e) = none) ∧
    (∀ s, geocodeAddress (GeoOutcome.exn s) = none) :=
  ⟨fun _ => rfl, fun _ => rfl, fun _ => rfl⟩

theorem placesForceRefresh_eq_not_cacheHit (env : Env) :
    placesForceRefresh env = !cacheHit env.currentPlaces env.placesRadius := by
  unfold placesForceRefresh cacheHit
  cases env.currentPlaces with
  | none => rfl
  | some p => simp [bne]

theorem featuresForceRefresh_eq_not_cacheHit (env : Env) :
    featuresForceRefresh env = !cacheHit env.currentFeatures env.featuresRadius := by
  unfold featuresForceRefresh cacheHit
  cases env.currentFeatures with
  | none => rfl
  | some p => simp [bne]

/-- **C7.**  Dispatch of a `places_requested` (and, in the final conjunct,
`features_requested`) terminal event whose show flag is set: the stream is
terminated; the corresponding checkbox is ticked if it was not already
(so the UI option ends up enabled); when a current route with polyline
coordinates exists, the fetch action for it is emitted with
`forceRefresh` exactly when the cached radius does not match the selected
radius (or no cache exists); when no such route exists, a generate-route
click is emitted instead; and in every case the completion callback with
the event's message text is the last action of the same synchronous
emission — it is not deferred behind the route fetch. -/
theorem placesRequested_dispatch (env : Env) (st : StreamSt) (m : Msg)
    (hst : m.status = some "places_requested") (hsh : m.show_places = true) :
    (processDataMessage env st m).2.2 = true ∧
    (env.showPlacesChecked = false →
       Act.checkShowPlaces ∈ (processDataMessage env st m).1) ∧
    (∀ route coords, env.currentRoute = some route →
       route.polyline_coords = some coords →
       Act.fetchPlaces coords (placesForceRefresh env) ∈
         (processDataMessage env st m).1) ∧
    placesForceRefresh env = !cacheHit env.currentPlaces env.placesRadius ∧
    ((env.currentRoute = none ∨
        (∃ route, env.currentRoute = some route ∧
          route.polyline_coords = none)) →
       env.hasGenerateRouteBtn = true →
       Act.clickGenerateRoute ∈ (processDataMessage env st m).1) ∧
    (processDataMessage env st m).1.getLast? =
      some (Act.onComplete (m.message.getD "") m.requires_ui_update) ∧
    (∀ (m2 : Msg), m2.status = some "features_requested" →
       m2.show_features = true →
       (processDataMessage env st m2).2.2 = true ∧
       (env.showFeaturesChecked = false →
          Act.checkShowFeatures ∈ (processDataMessage env st m2).1) ∧
       (∀ route coords, env.currentRoute = some route →
          route.polyline_coords = some coords →
          Act.fetchFeatures coords (featuresForceRefresh env) ∈
            (processDataMessage env st m2).1) ∧
       featuresForceRefresh env = !cacheHit env.currentFeatures env.featuresRadius ∧
       ((env.currentRoute = none ∨
           (∃ route, env.currentRoute = some route ∧
             route.polyline_coords = none)) →
          env.hasGenerateRouteBtn = true →
          Act.clickGenerateRoute ∈ (processDataMessage env st m2).1) ∧
       (processDataMessage env st m2).1.getLast? =
         some (Act.onComplete (m2.message.getD "") m2.requires_ui_update)) := by
  have h1 : ¬ m.status = some "route_generated" := by simp [hst]
  have hpd : processDataMessage env st m =
      (placesBranchActs env ++
         [Act.onComplete (m.message.getD "") m.requires_ui_update],
       ⟨m.message.getD "", m.requires_ui_update⟩, true) := by
    simp [processDataMessage, h1, hst, hsh]
  refine ⟨by simp [hpd], ?_, ?_, placesForceRefresh_eq_not_cacheHit env, ?_, ?_, ?_⟩
  · intro hck
    simp [hpd, placesBranchActs, hck]
  · intro route coords hr hc
    simp [hpd, placesBranchActs, hr, hc]
  · rintro (hr | ⟨route, hr, hc⟩) hbtn
    · simp [hpd, placesBranchActs, hr, hbtn]
    · simp [hpd, placesBranchActs, hr, hc, hbtn]
  · simp [hpd, List.getLast?_concat]
  · intro m2 hst2 hsh2
    have h1 : ¬ m2.status = some "route_generated" := by simp [hst2]
    have h2 : ¬ m2.status = some "places_requested" := by simp [hst2]
    have hpd2 : processDataMessage env st m2 =
        (featuresBranchActs env ++
           [Act.onComplete (m2.message.getD "") m2.requires_ui_update],
         ⟨m2.message.getD "", m2.requires_ui_update⟩, true) := by
      simp [processDataMessage, h1, h2, hst2, hsh2]
    refine ⟨by simp [hpd2], ?_, ?_, featuresForceRefresh_eq_not_cacheHit env, ?_, ?_⟩
    · intro hck
      simp [hpd2, featuresBranchActs, hck]
    · intro route coords hr hc
      simp [hpd2, featuresBranchActs, hr, hc]
    · rintro (hr | ⟨route, hr, hc⟩) hbtn
      · simp [hpd2, featuresBranchActs, hr, hbtn]
      · simp [hpd2, featuresBranchActs, hr, hc, hbtn]
    · simp [hpd2, List.getLast?_concat]

theorem processDataMessage_terminal_flag (env : Env) (st : StreamSt) (m : Msg)
    (h : isTerminalMsg m = true) : (processDataMessage env st m).2.2 = true := by
  by_cases h1 : m.status = some "route_generated"
  · simp [processDataMessage, h1]
  · by_cases h2 : m.status = some "places_requested"
    · simp [processDataMessage, h1, h2]
    · by_cases h3 : m.status = some "features_requested"
      · simp [processDataMessage, h1, h2, h3]
      · by_cases h4 : m.status = some "waypoint_added"
        · simp [processDataMessage, h1, h2, h3, h4]
        · have hns : recognizedStatus m = false := by
            simp [recognizedStatus, h1, h2, h3, h4]
          have herr : truthyError m = true := by
            simp only [isTerminalMsg, hns, Bool.false_or] at h
            exact h
          rw [processDataMessage_nonstatus env st m hns]
          simp [herr]

/-- **C8.**  Terminal events stop the stream.  (i) Every message with a
recognized terminal status or a truthy error sets the cancellation flag.
(ii) Within one read, once a segment terminates, the remaining segments of
that read are never processed (the run over `xs ++ ys` equals the run over
`xs`).  (iii) Once the segments of a fragment terminate, the decoder
output is exactly their actions, for every continuation of the stream —
no further event is ever emitted and no further fragment is consumed. -/
theorem terminal_event_stops_stream :
    (∀ (env : Env) (st : StreamSt) (m : Msg), isTerminalMsg m = true →
       (processDataMessage env st m).2.2 = true) ∧
    (∀ (parse : List Char → Option Msg) (env : Env) (st : StreamSt)
       (xs ys : List (List Char)),
       (processLines parse env st xs).2.2 = true →
       processLines parse env st (xs ++ ys) = processLines parse env st xs) ∧
    (∀ (parse : List Char → Option Msg) (env : Env) (buf f : List Char)
       (st : StreamSt) (rest : List (List Char)),
       (processLines parse env st (splitNN (buf ++ f)).dropLast).2.2 = true →
       processStream parse env (f :: rest) buf st =
         (processLines parse env st (splitNN (buf ++ f)).dropLast).1) := by
  refine ⟨?_, ?_, ?_⟩
  · exact fun env st m h => processDataMessage_terminal_flag env st m h
  · intro parse env st xs ys h
    rw [processLines_append]
    simp [h]
  · intro parse env buf f st rest h
    rw [processStream]
    simp [h]

/-- **C9.**  On an error terminal event (truthy `error` field, no
recognized status) the last emitted action is the error callback; folding
the emitted actions through the chat-UI callbacks leaves the pending
assistant bubble replaced by the fixed user-visible error text; and
folding them through the state-store effects leaves the session state
store — current route, cached places, cached features — exactly as it
was. -/
theorem error_event_surfaces_and_preserves_store (env : Env) (st : StreamSt)
    (m : Msg) (ui : ChatUI) (s : FormState)
    (fetchP fetchF : List Coord → String → List POI)
    (routeFlow updateFlow : FormState → FormState)
    (hns : recognizedStatus m = false) (herr : truthyError m = true) :
    (processDataMessage env st m).1.getLast? =
      some (Act.onError (m.error.getD "")) ∧
    ((processDataMessage env st m).1.foldl applyChatAct ui).assistantText =
      chatStreamErrorText ∧
    (processDataMessage env st m).1.foldl
        (applyStoreAct fetchP fetchF routeFlow updateFlow env) s = s := by
  rw [processDataMessage_nonstatus env st m hns]
  simp only [herr, if_true]
  cases hc : truthyChunk m with
  | none =>
    refine ⟨by simp, ?_, ?_⟩ <;> simp [applyChatAct, applyStoreAct]
  | some c =>
    refine ⟨by simp [List.getLast?_concat], ?_, ?_⟩ <;>
      simp [applyChatAct, applyStoreAct]

/-! ## Concrete instantiations -/

/-- A demo parser assigning fixed messages to three one-letter payloads
(standing in for `JSON.parse` on concrete well-formed bodies) and failing
on everything else. -/
def parseDemo : List Char → Option Msg := fun s =>
  if s = ['A'] then some { chunk := some "Hi" }
  else if s = ['B'] then some { complete := true, requires_ui_update := true }
  else if s = ['E'] then some { error := some "boom" }
  else none

/-- A demo remote fetcher returning one fixed place. -/
def fetchDemo : List Coord → String → List POI := fun _ _ => [⟨"cafe", "amenity"⟩]

/-- An empty form state. -/
def emptyFormState : FormState :=
  { currentRoute := none, currentPlaces := none, currentFeatures := none }

/-- Witness for the amended terminal-priority theorem at concrete inputs:
a recognized-status message ends in its completion event, an error-only
message ends in its error event. -/
theorem terminal_field_priority_witness :
    (processDataMessage env0 ⟨"", false⟩
        { status := some "route_generated", message := some "hi" }).1.getLast? =
      some (Act.onComplete "hi" false) ∧
    (processDataMessage env0 ⟨"", false⟩
        { error := some "boom" }).1.getLast? =
      some (Act.onError "boom") :=
  ⟨((terminal_field_priority env0 ⟨"", false⟩
      { status := some "route_generated", message := some "hi" }).1
        (by decide)).2.1,
   ((terminal_field_priority env0 ⟨"", false⟩
      { error := some "boom" }).2 (by decide) (by decide)).1⟩

/-- Witness for the natural-end completion theorem on the concrete stream
`chunk "Hi"` then `complete (requires_ui_update = true)`. -/
theorem natural_end_completion_witness :
    decodeLines parseDemo env0 ⟨"", false⟩
        ["data: A".toList, "data: B".toList] =
      [Act.onChunk "Hi", Act.onComplete "Hi" true] := by
  have h := natural_end_completion parseDemo env0
      ["data: A".toList, "data: B".toList]
      [{ chunk := some "Hi" }, { complete := true, requires_ui_update := true }]
      (List.Forall₂.cons ⟨by decide, by decide⟩
        (List.Forall₂.cons ⟨by decide, by decide⟩ List.Forall₂.nil))
      (by decide)
  rw [h]
  decide

/-- Witness for malformed-segment skipping on a concrete stream: the
unparseable `data: Z` segment between two well-formed ones changes
nothing. -/
theorem malformed_segment_skipped_witness :
    processLines parseDemo env0 ⟨"", false⟩
        (["data: A".toList] ++ "data: Z".toList :: ["data: B".toList]) =
      processLines parseDemo env0 ⟨"", false⟩
        (["data: A".toList] ++ ["data: B".toList]) :=
  malformed_segment_skipped parseDemo env0 ⟨"", false⟩
    ["data: A".toList] ["data: B".toList] "data: Z".toList
    (by decide) (by decide)

/-- Witness for the cache behaviour at concrete inputs: a miss fetches and
stores, a hit returns unchanged without fetching. -/
theorem getOrFetch_cached_witness :
    getPlaces fetchDemo [] "5" false emptyFormState =
      ({ emptyFormState with
          currentPlaces := some ⟨[⟨"cafe", "amenity"⟩], "5"⟩ }, true) ∧
    getNaturalFeatures fetchDemo [] "5" false
        { emptyFormState with currentFeatures := some ⟨[], "5"⟩ } =
      ({ emptyFormState with currentFeatures := some ⟨[], "5"⟩ }, false) :=
  ⟨(getOrFetch_cached fetchDemo [] "5" emptyFormState).2.1 (by decide),
   (getOrFetch_cached fetchDemo [] "5"
      { emptyFormState with currentFeatures := some ⟨[], "5"⟩ }).2.2.2.1
     (by decide)⟩

/-- Witness for the places-requested dispatch at a concrete input with no
current route: the generate-route click is emitted and the completion with
the message text is the final action. -/
theorem placesRequested_dispatch_witness :
    Act.clickGenerateRoute ∈
      (processDataMessage env0 ⟨"", false⟩
          { status := some "places_requested", message := some "Sure",
            show_places := true }).1 ∧
    (processDataMessage env0 ⟨"", false⟩
        { status := some "places_requested", message := some "Sure",
          show_places := true }).1.getLast? =
      some (Act.onComplete "Sure" false) :=
  ⟨(placesRequested_dispatch env0 ⟨"", false⟩
      { status := some "places_requested", message := some "Sure",
        show_places := true } rfl rfl).2.2.2.2.1 (Or.inl rfl) rfl,
   (placesRequested_dispatch env0 ⟨"", false⟩
      { status := some "places_requested", message := some "Sure",
        show_places := true } rfl rfl).2.2.2.2.2.1⟩

/-- Witness for stream termination at concrete inputs: an error message
sets the cancellation flag; segments after the terminal one are ignored;
fragments after the terminal fragment are never consumed. -/
theorem terminal_event_stops_stream_witness :
    (processDataMessage env0 ⟨"", false⟩ { error := some "boom" }).2.2 = true ∧
    processLines parseDemo env0 ⟨"", false⟩
        (["data: E".toList] ++ ["data: A".toList]) =
      processLines parseDemo env0 ⟨"", false⟩ ["data: E".toList] ∧
    processStream parseDemo env0
        ["data: E\n\n".toList, "data: A\n\n".toList] [] ⟨"", false⟩ =
      (processLines parseDemo env0 ⟨"", false⟩
          (splitNN ([] ++ "data: E\n\n".toList)).dropLast).1 :=
  ⟨terminal_event_stops_stream.1 env0 ⟨"", false⟩ { error := some "boom" }
     (by decide),
   terminal_event_stops_stream.2.1 parseDemo env0 ⟨"", false⟩
     ["data: E".toList] ["data: A".toList] (by decide),
   terminal_event_stops_stream.2.2 parseDemo env0 [] "data: E\n\n".toList
     ⟨"", false⟩ ["data: A\n\n".toList] (by decide)⟩

/-- Witness for the error-event theorem on a concrete error message: the
bubble shows the fixed error text and the store is untouched. -/
theorem error_event_witness :
    ((processDataMessage env0 ⟨"", false⟩
        { error := some "boom" }).1.foldl applyChatAct ⟨"…"⟩).assistantText =
      chatStreamErrorText ∧
    (processDataMessage env0 ⟨"", false⟩
        { error := some "boom" }).1.foldl
        (applyStoreAct fetchDemo fetchDemo id id env0) emptyFormState =
      emptyFormState :=
  ⟨(error_event_surfaces_and_preserves_store env0 ⟨"", false⟩
      { error := some "boom" } ⟨"…"⟩ emptyFormState fetchDemo fetchDemo id id
      (by decide) (by decide)).2.1,
   (error_event_surfaces_and_preserves_store env0 ⟨"", false⟩
      { error := some "boom" } ⟨"…"⟩ emptyFormState fetchDemo fetchDemo id id
      (by decide) (by decide)).2.2⟩

end MapChat
